import Mathlib

/-!
Shallow embedding of the LoyaltyLink loyalty-state transition engine.

The engine lives in PostgreSQL trigger functions; this file translates the
final (latest-migration) version of each function into Lean:

* `update_customer_tier`   — src/unnamed/part_002 lines 24-130
* `check_milestone_rewards`— src/unnamed/part_002 lines 176-236
* `handle_new_visit`       — supabase/migrations/20250809164630 lines 2-22
* `handle_new_user`        — src/unnamed/part_002 lines 312-392
* `apply_reward_to_order`  — supabase/migrations/20251018113957 lines 415-463
* `handle_new_order`       — supabase/migrations/20251018113957 lines 466-491

Numerics (PostgreSQL NUMERIC) are modelled as `Rat`; timestamps as `Int`
measured in days (PostgreSQL timestamps are discrete), so the
`rewards.expiration_date` column default `now() + INTERVAL '30 days'` becomes
`now + 30`.  `uuid` keys are modelled
as `Nat` with explicit next-id counters.
-/

/-- The `tier_type` enum (src/unnamed/part_003 line 5). -/
inductive Tier where
  | bronze
  | silver
  | gold
deriving DecidableEq, Repr

/-- The `reward_status` enum (src/unnamed/part_003 line 8). -/
inductive RewardStatus where
  | available
  | claimed
deriving DecidableEq, Repr

/-- The shape of the `tier_thresholds` JSONB setting: only the `min` fields are
read by the code (`->'gold'->>'min'`, `->'silver'->>'min'`); the bronze minimum
and the `max` fields are never consulted. -/
structure TierThresholds where
  silverMin : Int
  goldMin : Int
deriving DecidableEq, Repr

/-- One entry of the `tier_graduation_rewards` JSONB setting. -/
structure GradDef where
  rewardType : String
  rewardValue : Rat
  rewardTitle : String
  rewardDescription : String
deriving DecidableEq, Repr

/-- The `tier_graduation_rewards` JSONB setting: a key may be absent
(`graduation_rewards->'bronze_to_silver'` is SQL NULL), hence `Option`. -/
structure GradConfig where
  bronzeToSilver : Option GradDef
  silverToGold : Option GradDef
deriving DecidableEq, Repr

/-- The `system_settings` rows the engine reads; `none` models an absent
`setting_key` row, in which case each reader COALESCEs a hard-coded default. -/
structure Settings where
  tierThresholds : Option TierThresholds
  tierGraduationRewards : Option GradConfig
  milestoneFrequency : Option Int
  milestoneRewardValue : Option Rat
  referralRewardValue : Option Rat
  rewardExpirationDays : Option Int
deriving DecidableEq, Repr

/-- COALESCE default for `tier_thresholds` (src/unnamed/part_002 line 53). -/
def defaultTierThresholds : TierThresholds := { silverMin := 10, goldMin := 20 }

/-- COALESCE default for `tier_graduation_rewards` (src/unnamed/part_002 lines 54-57). -/
def defaultGraduationRewards : GradConfig :=
  { bronzeToSilver := some
      { rewardType := "fixed", rewardValue := 10,
        rewardTitle := "Upgraded to Silver Tier!",
        rewardDescription := "Congratulations on reaching Silver tier! Enjoy $10 off your next order." },
    silverToGold := some
      { rewardType := "fixed", rewardValue := 15,
        rewardTitle := "Upgraded to Gold Tier!",
        rewardDescription := "Congratulations on reaching Gold tier! Enjoy $15 off your next order." } }

def Settings.effThresholds (s : Settings) : TierThresholds :=
  s.tierThresholds.getD defaultTierThresholds

def Settings.effGraduation (s : Settings) : GradConfig :=
  s.tierGraduationRewards.getD defaultGraduationRewards

/-- A row of `customer_stats` (src/unnamed/part_003 lines 36-44). -/
structure CustomerStats where
  totalVisits : Int
  currentTier : Tier
  tierUpdatedAt : Int
  createdAt : Int
  updatedAt : Int
deriving DecidableEq, Repr

/-- A row of `rewards` (src/unnamed/part_003 lines 47-61 plus the columns added
by supabase/migrations/20251018113957 lines 219-225).
`minimum_order_value` has column default 0 and every engine INSERT sets it
explicitly, so it is modelled non-nullable. -/
structure Reward where
  id : Nat
  customerId : Nat
  rewardType : String
  rewardTitle : String
  rewardDescription : Option String
  milestoneVisits : Option Int
  isBirthdayReward : Bool
  isReferralReward : Bool
  status : RewardStatus
  unlockedAt : Int
  claimedAt : Option Int
  rewardValue : Option Rat
  discountPercentage : Option Int
  applicableTo : String
  minimumOrderValue : Rat
  expirationDate : Option Int
  appliedToOrderId : Option Nat
deriving DecidableEq, Repr

/-- A row of `profiles` (src/unnamed/part_003 lines 11-23). -/
structure Profile where
  id : Nat
  userId : Nat
  email : String
  fullName : String
  phoneNumber : Option String
  dateOfBirth : Option String
  referralCode : String
  referredByCode : Option String
deriving DecidableEq, Repr

/-- A row of `referrals` (src/unnamed/part_003 lines 64-72). -/
structure Referral where
  referrerId : Nat
  referredId : Nat
  referralCode : String
  rewardGranted : Bool
deriving DecidableEq, Repr

/-- A row of `visits` (src/unnamed/part_003 lines 26-33), restricted to the
columns the engine writes. -/
structure Visit where
  customerId : Nat
  notes : Option String
deriving DecidableEq, Repr

/-- The columns of an `orders` row consulted by `handle_new_order`. -/
structure Order where
  id : Nat
  customerProfileId : Option Nat
  tableNumber : String
  appliedRewardId : Option Nat
deriving DecidableEq, Repr

/-- The database state seen by the engine.  `stats` is keyed by the UNIQUE
`customer_id`; `now` is the transaction-stable `now()` value. -/
structure DB where
  stats : Nat → Option CustomerStats
  rewards : List Reward
  nextRewardId : Nat
  referrals : List Referral
  profiles : List Profile
  nextProfileId : Nat
  roles : List (Nat × String)
  visits : List Visit
  settings : Settings
  now : Int

/-- Convenience view of a customer's visit count (0 when no stats row exists). -/
def DB.totalVisitsView (db : DB) (cid : Nat) : Int :=
  (db.stats cid).elim 0 (fun cs => cs.totalVisits)

/-- A `rewards` row populated with the column defaults every engine INSERT
relies on: `status` defaults to `available`, `expiration_date` defaults to
`now() + INTERVAL '30 days'` (supabase/migrations/20251018113957 line 224),
the kind flags default to FALSE.  Callers override the columns their INSERT
lists explicitly; all engine INSERTs set `applicable_to = 'all'` and
`minimum_order_value = 0`. -/
def baseReward (db : DB) (cid : Nat) (rtype title descr : String) : Reward :=
  { id := db.nextRewardId, customerId := cid, rewardType := rtype,
    rewardTitle := title, rewardDescription := some descr,
    milestoneVisits := none, isBirthdayReward := false, isReferralReward := false,
    status := RewardStatus.available, unlockedAt := db.now, claimedAt := none,
    rewardValue := none, discountPercentage := none, applicableTo := "all",
    minimumOrderValue := 0, expirationDate := some (db.now + 30),
    appliedToOrderId := none }

/-- INSERT INTO public.rewards. -/
def insertReward (db : DB) (r : Reward) : DB :=
  { db with rewards := r :: db.rewards, nextRewardId := db.nextRewardId + 1 }

/-- PostgreSQL NUMERIC-to-integer cast: round to nearest, ties away from zero
(used for `reward_value::integer` in the percentage branch). -/
def pgRoundInt (x : Rat) : Int :=
  if 0 ≤ x then ⌊x + 1/2⌋ else -⌊-x + 1/2⌋

/-- `public.update_customer_tier` — final version, src/unnamed/part_002
lines 24-130.  The source computes `new_tier` and `upgrade_config` in one
IF/ELSIF chain over the same conditions; here the chain is written twice, once
for each variable.  When no stats row exists the SQL NULL semantics make every
branch condition false and the function changes nothing.  The source guard
`IF new_tier != current_tier AND upgrade_config IS NOT NULL` wraps both the
`customer_stats` UPDATE and the reward INSERT; the INSERT further requires
`reward_type` to be `'fixed'` or `'percentage'`. -/
def update_customer_tier (db : DB) (cid : Nat) : DB :=
  let th := db.settings.effThresholds
  let gr := db.settings.effGraduation
  match db.stats cid with
  | none => db
  | some cs =>
    let v := cs.totalVisits
    let newTier : Tier :=
      if v ≥ th.goldMin then Tier.gold
      else if v ≥ th.silverMin then Tier.silver
      else Tier.bronze
    let upCfg : Option GradDef :=
      if v ≥ th.goldMin then gr.silverToGold
      else if v ≥ th.silverMin then gr.bronzeToSilver
      else none
    match upCfg with
    | none => db
    | some c =>
      if newTier = cs.currentTier then db
      else
        let cs1 : CustomerStats :=
          { cs with currentTier := newTier, tierUpdatedAt := db.now, updatedAt := db.now }
        let db1 : DB :=
          { db with stats := fun i => if i = cid then some cs1 else db.stats i }
        if c.rewardType = "fixed" then
          insertReward db1
            { baseReward db1 cid "tier_upgrade" c.rewardTitle c.rewardDescription with
              rewardValue := some c.rewardValue }
        else if c.rewardType = "percentage" then
          insertReward db1
            { baseReward db1 cid "tier_upgrade" c.rewardTitle c.rewardDescription with
              discountPercentage := some (pgRoundInt c.rewardValue) }
        else db1

/-- The NOT EXISTS idempotency guard of `check_milestone_rewards`
(src/unnamed/part_002 lines 206-212). -/
def milestoneGuardHit (rewards : List Reward) (cid : Nat) (v : Int) : Bool :=
  rewards.any fun r =>
    r.customerId == cid && r.milestoneVisits == some v &&
      r.isBirthdayReward == false && r.isReferralReward == false

/-- `public.check_milestone_rewards` — final version, src/unnamed/part_002
lines 176-236. -/
def check_milestone_rewards (db : DB) (cid : Nat) : DB :=
  let freq := db.settings.milestoneFrequency.getD 6
  let milestoneVal := db.settings.milestoneRewardValue.getD 10
  match db.stats cid with
  | none => db
  | some cs =>
    let v := cs.totalVisits
    if v > 0 ∧ v % freq = 0 then
      if milestoneGuardHit db.rewards cid v then db
      else
        insertReward db
          { baseReward db cid "milestone"
              ("Milestone Reward - " ++ toString v ++ " Visits!")
              ("Congratulations on reaching " ++ toString v ++
                " visits! Enjoy $" ++ toString milestoneVal ++ " off your next order.") with
            milestoneVisits := some v, rewardValue := some milestoneVal }
    else db

/-- The `INSERT INTO customer_stats ... ON CONFLICT (customer_id) DO UPDATE`
upsert at the head of `handle_new_visit` (migrations/20250809164630 lines
8-14); a fresh row takes the column defaults `current_tier = 'bronze'` and
`now()` timestamps. -/
def upsertStats (db : DB) (cid : Nat) : DB :=
  match db.stats cid with
  | none =>
    let fresh : CustomerStats :=
      { totalVisits := 1, currentTier := Tier.bronze, tierUpdatedAt := db.now,
        createdAt := db.now, updatedAt := db.now }
    { db with stats := fun i => if i = cid then some fresh else db.stats i }
  | some cs =>
    let bumped : CustomerStats :=
      { cs with totalVisits := cs.totalVisits + 1, updatedAt := db.now }
    { db with stats := fun i => if i = cid then some bumped else db.stats i }

/-- `public.handle_new_visit` (migrations/20250809164630 lines 2-22): upsert
the stats row, then PERFORM `update_customer_tier`, then PERFORM
`check_milestone_rewards`. -/
def handle_new_visit (db : DB) (cid : Nat) : DB :=
  check_milestone_rewards (update_customer_tier (upsertStats db cid) cid) cid

/-- A sequence of visit inserts (each firing the `on_visit_logged` trigger),
listed oldest first; entries are the visited customers' ids. -/
def applyVisits (db : DB) (l : List Nat) : DB :=
  l.foldl handle_new_visit db

/-- The typed error results of `apply_reward_to_order`; the minimum-order
message carries the required minimum, as the source interpolates it into
`'Minimum order value of $' || minimum_order_value || ' required'`. -/
inductive RewardError where
  | notAvailableOrExpired
  | minimumOrderValue (required : Rat)
  | invalidConfiguration
deriving DecidableEq, Repr

/-- PostgreSQL `LEAST` on two non-null NUMERIC arguments. -/
def pgLeast (a b : Rat) : Rat :=
  if a ≤ b then a else b

/-- PostgreSQL `ROUND(x, 2)`: half away from zero at two decimal places. -/
def round2 (x : Rat) : Rat :=
  if 0 ≤ x then (⌊x * 100 + 1/2⌋ : Rat) / 100
  else -((⌊-x * 100 + 1/2⌋ : Rat) / 100)

/-- The WHERE clause of the reward lookup in `apply_reward_to_order`
(migrations/20251018113957 lines 430-434): `id = _reward_id AND status =
'available' AND (expiration_date IS NULL OR expiration_date > now())`. -/
def rewardSelectable (now : Int) (rid : Nat) (r : Reward) : Bool :=
  r.id == rid && r.status == RewardStatus.available &&
    (match r.expirationDate with
     | none => true
     | some e => decide (now < e))

/-- `public.apply_reward_to_order` (migrations/20251018113957 lines 415-463).
It is a read-only function: it takes the rewards table and returns
`(discount_amount, error_message)` without producing a new state.  The
`_order_items` argument is accepted and ignored, as in the source. -/
def apply_reward_to_order (rewards : List Reward) (now : Int) (rewardId : Nat)
    (orderTotal : Rat) (_order_items : List (String × Rat)) : Rat × Option RewardError :=
  match rewards.find? (rewardSelectable now rewardId) with
  | none => (0, some RewardError.notAvailableOrExpired)
  | some r =>
    if orderTotal < r.minimumOrderValue then
      (0, some (RewardError.minimumOrderValue r.minimumOrderValue))
    else
      match r.rewardValue with
      | some rv =>
        let raw := pgLeast rv orderTotal
        (pgLeast raw orderTotal, none)
      | none =>
        match r.discountPercentage with
        | some p =>
          let raw := round2 (orderTotal * (p : Rat) / 100)
          (pgLeast raw orderTotal, none)
        | none => (0, some RewardError.invalidConfiguration)

/-- The conditional `UPDATE public.rewards SET status = 'claimed', claimed_at =
now(), applied_to_order_id = NEW.id WHERE id = NEW.applied_reward_id AND status
= 'available'` of `handle_new_order`, applied row-wise. -/
def claimReward (now : Int) (orderId : Nat) (rid : Nat) (r : Reward) : Reward :=
  if r.id = rid ∧ r.status = RewardStatus.available then
    { r with status := RewardStatus.claimed, claimedAt := some now,
             appliedToOrderId := some orderId }
  else r

/-- `public.handle_new_order` (migrations/20251018113957 lines 466-491): if the
order has a customer, insert a visit row — whose AFTER INSERT trigger runs
`handle_new_visit` before control returns — then conditionally claim the
applied reward. -/
def handle_new_order (db : DB) (o : Order) : DB :=
  let db1 :=
    match o.customerProfileId with
    | none => db
    | some cid =>
      handle_new_visit
        { db with visits :=
            { customerId := cid,
              notes := some ("Order #" ++ toString o.id ++ " - Table " ++ o.tableNumber) }
            :: db.visits }
        cid
  match o.appliedRewardId with
  | none => db1
  | some rid => { db1 with rewards := db1.rewards.map (claimReward db1.now o.id rid) }

/-- The `raw_user_meta_data` fields read by `handle_new_user`. -/
structure UserMeta where
  fullName : Option String
  phoneNumber : Option String
  dateOfBirth : Option String
  referredByCode : Option String
deriving DecidableEq, Repr

/-- `public.handle_new_user` — final version, src/unnamed/part_002 lines
312-392.  `newCode` is the value produced by `generate_referral_code()`
(external randomness, passed in).  The referrer lookup runs after the new
profile row is inserted, so it scans the table including that row, exactly as
the source SELECT does. -/
def handle_new_user (db : DB) (userId : Nat) (email : String) (meta : UserMeta)
    (newCode : String) : DB :=
  let pid := db.nextProfileId
  let profile : Profile :=
    { id := pid, userId := userId, email := email,
      fullName := meta.fullName.getD email, phoneNumber := meta.phoneNumber,
      dateOfBirth := meta.dateOfBirth, referralCode := newCode,
      referredByCode := meta.referredByCode }
  let db1 : DB :=
    { db with
      profiles := profile :: db.profiles,
      nextProfileId := pid + 1,
      roles := (userId, "customer") :: db.roles }
  match meta.referredByCode with
  | none => db1
  | some code =>
    match db1.profiles.find? (fun p => p.referralCode == code) with
    | none => db1
    | some refp =>
      let rv := db.settings.referralRewardValue.getD 15
      let db2 : DB := { db1 with referrals :=
        { referrerId := refp.id, referredId := pid, referralCode := code,
          rewardGranted := true } :: db1.referrals }
      insertReward db2
        { baseReward db2 refp.id "referral" "Referral Bonus!"
            ("Thank you for referring a new customer! Enjoy $" ++ toString rv ++
              " off your next order.") with
          isReferralReward := true, rewardValue := some rv }

/-- The spec's pure tier function `tierOf(v, T)` with gold-highest precedence,
stated from the spec's words for comparison with `update_customer_tier`. -/
def tierOf (v : Int) (th : TierThresholds) : Tier :=
  if v ≥ th.goldMin then Tier.gold
  else if v ≥ th.silverMin then Tier.silver
  else Tier.bronze

/-- The graduation-definition key the source selects, a function of the new
tier only: gold reads `silver_to_gold`, silver reads `bronze_to_silver`,
bronze selects nothing. -/
def gradFor (gr : GradConfig) : Tier → Option GradDef
  | Tier.gold => gr.silverToGold
  | Tier.silver => gr.bronzeToSilver
  | Tier.bronze => none


/-- The spec's tier-consistency invariant for one customer: whenever a stats
row exists, its stored tier equals `tierOf` of its stored visit count under
the thresholds in effect. -/
def TierInv (db : DB) (cid : Nat) : Prop :=
  ∀ cs, db.stats cid = some cs →
    cs.currentTier = tierOf cs.totalVisits db.settings.effThresholds

/-- Both graduation upgrade keys are configured; true of the fallback
configuration and of an absent setting. -/
def GradKeysPresent (s : Settings) : Prop :=
  s.effGraduation.bronzeToSilver.isSome ∧ s.effGraduation.silverToGold.isSome

/-- The milestone reward row `check_milestone_rewards` inserts when it fires. -/
def milestoneReward (db : DB) (cid : Nat) (v : Int) : Reward :=
  { baseReward db cid "milestone"
      ("Milestone Reward - " ++ toString v ++ " Visits!")
      ("Congratulations on reaching " ++ toString v ++
        " visits! Enjoy $" ++ toString (db.settings.milestoneRewardValue.getD 10) ++
        " off your next order.") with
    milestoneVisits := some v,
    rewardValue := some (db.settings.milestoneRewardValue.getD 10) }

/-- The reward row inserted on a tier change when the graduation definition has
`reward_type = 'fixed'`. -/
def tierRewardFixed (db : DB) (cid : Nat) (c : GradDef) : Reward :=
  { baseReward db cid "tier_upgrade" c.rewardTitle c.rewardDescription with
    rewardValue := some c.rewardValue }

/-- The reward row inserted on a tier change when the graduation definition has
`reward_type = 'percentage'`. -/
def tierRewardPct (db : DB) (cid : Nat) (c : GradDef) : Reward :=
  { baseReward db cid "tier_upgrade" c.rewardTitle c.rewardDescription with
    discountPercentage := some (pgRoundInt c.rewardValue) }

/-- The profile row `handle_new_user` inserts. -/
def newProfile (db : DB) (userId : Nat) (email : String) (meta : UserMeta)
    (newCode : String) : Profile :=
  { id := db.nextProfileId, userId := userId, email := email,
    fullName := meta.fullName.getD email, phoneNumber := meta.phoneNumber,
    dateOfBirth := meta.dateOfBirth, referralCode := newCode,
    referredByCode := meta.referredByCode }

/-- The reward row `handle_new_user` grants the referrer. -/
def referralReward (db : DB) (refId : Nat) : Reward :=
  { baseReward db refId "referral" "Referral Bonus!"
      ("Thank you for referring a new customer! Enjoy $" ++
        toString (db.settings.referralRewardValue.getD 15) ++ " off your next order.") with
    isReferralReward := true,
    rewardValue := some (db.settings.referralRewardValue.getD 15) }

/-- A settings table with every engine key absent: every reader falls back to
its hard-coded default. -/
def emptySettings : Settings :=
  { tierThresholds := none, tierGraduationRewards := none, milestoneFrequency := none,
    milestoneRewardValue := none, referralRewardValue := none, rewardExpirationDays := none }

/-- An empty database with the given settings; the transaction time is 0. -/
def initDB (s : Settings) : DB :=
  { stats := fun _ => none, rewards := [], nextRewardId := 0, referrals := [],
    profiles := [], nextProfileId := 0, roles := [], visits := [], settings := s, now := 0 }

/-- Settings with silver reachable from the first visit and a stored
`tier_graduation_rewards` JSONB with no transition keys (the value `{}` is a
legal setting value). -/
def settingsNoGradKeys : Settings :=
  { emptySettings with
    tierThresholds := some { silverMin := 1, goldMin := 20 },
    tierGraduationRewards := some { bronzeToSilver := none, silverToGold := none } }

/-- A stats row at 6 visits, stored bronze. -/
def csSix : CustomerStats :=
  { totalVisits := 6, currentTier := Tier.bronze, tierUpdatedAt := 0,
    createdAt := 0, updatedAt := 0 }

/-- Database with customer 1 at 6 visits (stored bronze) and default settings. -/
def dbSixVisitsStored : DB :=
  { initDB emptySettings with stats := fun i => if i = 1 then some csSix else none }

/-- Database with customer 1 at 10 visits stored bronze, default thresholds,
and a graduation configuration carrying no transition keys. -/
def dbGradMissing : DB :=
  { initDB { emptySettings with
      tierGraduationRewards := some { bronzeToSilver := none, silverToGold := none } } with
    stats := fun i =>
      if i = 1 then
        some { totalVisits := 10, currentTier := Tier.bronze, tierUpdatedAt := 0,
               createdAt := 0, updatedAt := 0 }
      else none }

/-- A reward carrying a negative fixed value, which the rewards table admits
(no CHECK constraint restricts `reward_value`). -/
def negativeReward : Reward :=
  { baseReward (initDB emptySettings) 1 "milestone" "Negative" "negative value" with
    id := 5, rewardValue := some (-5) }

/-- An available fixed $10 reward owned by customer 1. -/
def tenReward : Reward :=
  { baseReward (initDB emptySettings) 1 "milestone" "Ten" "ten off" with
    id := 5, rewardValue := some 10 }

/-- Database holding only `tenReward`. -/
def dbWithTen : DB :=
  { initDB emptySettings with rewards := [tenReward], nextRewardId := 6 }

/-- An order without a customer that references `tenReward`. -/
def orderTen : Order :=
  { id := 100, customerProfileId := none, tableNumber := "5", appliedRewardId := some 5 }

/-- An order placed by customer 2 that references customer 1's `tenReward`. -/
def orderCross : Order :=
  { id := 101, customerProfileId := some 2, tableNumber := "7", appliedRewardId := some 5 }

/-- The profile owning referral code "RC". -/
def referrerProfile : Profile :=
  { id := 0, userId := 9, email := "r@x", fullName := "R", phoneNumber := none,
    dateOfBirth := none, referralCode := "RC", referredByCode := none }

/-- Signup metadata carrying referral code "RC". -/
def metaRC : UserMeta :=
  { fullName := none, phoneNumber := none, dateOfBirth := none,
    referredByCode := some "RC" }

/-- Database with the `reward_expiration_days` setting present (7 days) and the
referrer profile. -/
def dbExp7 : DB :=
  { initDB { emptySettings with rewardExpirationDays := some 7 } with
    profiles := [referrerProfile], nextProfileId := 1 }


theorem upsertStats_settings (db : DB) (cid : Nat) :
    (upsertStats db cid).settings = db.settings := by
  unfold upsertStats
  cases db.stats cid <;> rfl

theorem upsertStats_now (db : DB) (cid : Nat) :
    (upsertStats db cid).now = db.now := by
  unfold upsertStats
  cases db.stats cid <;> rfl

theorem upsertStats_rewards (db : DB) (cid : Nat) :
    (upsertStats db cid).rewards = db.rewards := by
  unfold upsertStats
  cases db.stats cid <;> rfl

theorem upsertStats_stats_ne (db : DB) (cid i : Nat) (h : i ≠ cid) :
    (upsertStats db cid).stats i = db.stats i := by
  unfold upsertStats
  cases db.stats cid <;> simp [h]

theorem upsertStats_stats_none (db : DB) (cid : Nat) (h : db.stats cid = none) :
    (upsertStats db cid).stats cid =
      some { totalVisits := 1, currentTier := Tier.bronze, tierUpdatedAt := db.now,
             createdAt := db.now, updatedAt := db.now } := by
  unfold upsertStats
  rw [h]
  simp

theorem upsertStats_stats_some (db : DB) (cid : Nat) (cs : CustomerStats)
    (h : db.stats cid = some cs) :
    (upsertStats db cid).stats cid =
      some { cs with totalVisits := cs.totalVisits + 1, updatedAt := db.now } := by
  unfold upsertStats
  rw [h]
  simp

theorem utct_settings (db : DB) (cid : Nat) :
    (update_customer_tier db cid).settings = db.settings := by
  unfold update_customer_tier
  split
  · rfl
  · dsimp only
    split
    · rfl
    · split_ifs <;> rfl

theorem utct_now (db : DB) (cid : Nat) :
    (update_customer_tier db cid).now = db.now := by
  unfold update_customer_tier
  split
  · rfl
  · dsimp only
    split
    · rfl
    · split_ifs <;> rfl

theorem tierOf_ite (v : Int) (th : TierThresholds) :
    (if v ≥ th.goldMin then Tier.gold
     else if v ≥ th.silverMin then Tier.silver
     else Tier.bronze) = tierOf v th := rfl

theorem gradFor_tierOf (gr : GradConfig) (v : Int) (th : TierThresholds) :
    (if v ≥ th.goldMin then gr.silverToGold
     else if v ≥ th.silverMin then gr.bronzeToSilver
     else none) = gradFor gr (tierOf v th) := by
  unfold gradFor tierOf
  split_ifs <;> rfl

theorem utct_noop (db : DB) (cid : Nat) (cs : CustomerStats)
    (h : db.stats cid = some cs)
    (hcase : tierOf cs.totalVisits db.settings.effThresholds = cs.currentTier ∨
      gradFor db.settings.effGraduation (tierOf cs.totalVisits db.settings.effThresholds) = none) :
    update_customer_tier db cid = db := by
  unfold update_customer_tier
  rw [h]
  dsimp only
  rw [tierOf_ite, gradFor_tierOf]
  rcases hcase with hcase | hcase
  · cases hg : gradFor db.settings.effGraduation (tierOf cs.totalVisits db.settings.effThresholds)
    · rfl
    · dsimp only
      rw [if_pos hcase]
  · rw [hcase]

theorem utct_update (db : DB) (cid : Nat) (cs : CustomerStats) (c : GradDef)
    (h : db.stats cid = some cs)
    (hne : tierOf cs.totalVisits db.settings.effThresholds ≠ cs.currentTier)
    (hcfg : gradFor db.settings.effGraduation (tierOf cs.totalVisits db.settings.effThresholds) =
      some c) :
    update_customer_tier db cid =
      (let newTier := tierOf cs.totalVisits db.settings.effThresholds
       let cs1 : CustomerStats :=
         { cs with currentTier := newTier, tierUpdatedAt := db.now, updatedAt := db.now }
       let db1 : DB :=
         { db with stats := fun i => if i = cid then some cs1 else db.stats i }
       if c.rewardType = "fixed" then
         insertReward db1
           { baseReward db1 cid "tier_upgrade" c.rewardTitle c.rewardDescription with
             rewardValue := some c.rewardValue }
       else if c.rewardType = "percentage" then
         insertReward db1
           { baseReward db1 cid "tier_upgrade" c.rewardTitle c.rewardDescription with
             discountPercentage := some (pgRoundInt c.rewardValue) }
       else db1) := by
  unfold update_customer_tier
  rw [h]
  dsimp only
  rw [tierOf_ite, gradFor_tierOf, hcfg]
  dsimp only
  rw [if_neg hne]

theorem cmr_stats (db : DB) (cid : Nat) :
    (check_milestone_rewards db cid).stats = db.stats := by
  unfold check_milestone_rewards
  split
  · rfl
  · dsimp only
    split_ifs <;> rfl

theorem cmr_settings (db : DB) (cid : Nat) :
    (check_milestone_rewards db cid).settings = db.settings := by
  unfold check_milestone_rewards
  split
  · rfl
  · dsimp only
    split_ifs <;> rfl

theorem cmr_now (db : DB) (cid : Nat) :
    (check_milestone_rewards db cid).now = db.now := by
  unfold check_milestone_rewards
  split
  · rfl
  · dsimp only
    split_ifs <;> rfl

theorem utct_stats_ne (db : DB) (cid i : Nat) (h : i ≠ cid) :
    (update_customer_tier db cid).stats i = db.stats i := by
  unfold update_customer_tier
  split
  · rfl
  · dsimp only
    split
    · rfl
    · split_ifs <;> simp [insertReward, h]

theorem utct_update_stats_self (db : DB) (cid : Nat) (cs : CustomerStats) (c : GradDef)
    (h : db.stats cid = some cs)
    (hne : tierOf cs.totalVisits db.settings.effThresholds ≠ cs.currentTier)
    (hcfg : gradFor db.settings.effGraduation (tierOf cs.totalVisits db.settings.effThresholds) =
      some c) :
    (update_customer_tier db cid).stats cid =
      some { cs with currentTier := tierOf cs.totalVisits db.settings.effThresholds,
                     tierUpdatedAt := db.now, updatedAt := db.now } := by
  rw [utct_update db cid cs c h hne hcfg]
  dsimp only
  split_ifs <;> simp [insertReward]

theorem upsertStats_view_self (db : DB) (cid : Nat) :
    (upsertStats db cid).totalVisitsView cid = db.totalVisitsView cid + 1 := by
  unfold upsertStats DB.totalVisitsView
  cases h : db.stats cid <;> simp

theorem tierOf_succ_bronze (v : Int) (th : TierThresholds)
    (h : tierOf (v + 1) th = Tier.bronze) : tierOf v th = Tier.bronze := by
  unfold tierOf at h ⊢
  split_ifs at h ⊢ with h1 h2 <;> simp_all <;> omega

theorem gradFor_isSome (gr : GradConfig) (t : Tier) (hne : t ≠ Tier.bronze)
    (hBS : gr.bronzeToSilver.isSome) (hSG : gr.silverToGold.isSome) :
    ∃ c, gradFor gr t = some c := by
  cases t with
  | bronze => exact absurd rfl hne
  | silver => exact Option.isSome_iff_exists.mp hBS
  | gold => exact Option.isSome_iff_exists.mp hSG

theorem hnv_settings (db : DB) (cid : Nat) :
    (handle_new_visit db cid).settings = db.settings := by
  unfold handle_new_visit
  rw [cmr_settings, utct_settings, upsertStats_settings]

theorem hnv_now (db : DB) (cid : Nat) :
    (handle_new_visit db cid).now = db.now := by
  unfold handle_new_visit
  rw [cmr_now, utct_now, upsertStats_now]

theorem utct_stats_none (db : DB) (cid : Nat) (h : db.stats cid = none) :
    update_customer_tier db cid = db := by
  unfold update_customer_tier
  rw [h]

theorem hnv_tierInv_step (db : DB) (c cid : Nat)
    (hkeys : GradKeysPresent db.settings)
    (hinv : TierInv db cid) : TierInv (handle_new_visit db c) cid := by
  intro cs' hcs'
  rw [hnv_settings]
  unfold handle_new_visit at hcs'
  rw [cmr_stats] at hcs'
  by_cases hc : cid = c
  · subst hc
    have hsetX : (upsertStats db cid).settings = db.settings := upsertStats_settings db cid
    obtain ⟨csU, hcsU, hpre⟩ :
        ∃ csU, (upsertStats db cid).stats cid = some csU ∧
          (csU.currentTier = tierOf csU.totalVisits db.settings.effThresholds ∨
            (tierOf csU.totalVisits db.settings.effThresholds ≠ csU.currentTier ∧
              tierOf csU.totalVisits db.settings.effThresholds ≠ Tier.bronze)) := by
      cases h0 : db.stats cid with
      | none =>
        refine ⟨_, upsertStats_stats_none db cid h0, ?_⟩
        by_cases hb : tierOf 1 db.settings.effThresholds = Tier.bronze
        · exact Or.inl hb.symm
        · exact Or.inr ⟨hb, hb⟩
      | some cs =>
        refine ⟨_, upsertStats_stats_some db cid cs h0, ?_⟩
        have hcur := hinv cs h0
        by_cases heq : tierOf (cs.totalVisits + 1) db.settings.effThresholds = cs.currentTier
        · exact Or.inl heq.symm
        · refine Or.inr ⟨heq, fun hb => ?_⟩
          have h1 := tierOf_succ_bronze cs.totalVisits db.settings.effThresholds hb
          exact heq (hb.trans (hcur.trans h1).symm)
    rcases hpre with hpre | ⟨hne, hnb⟩
    · have hnoop : update_customer_tier (upsertStats db cid) cid = upsertStats db cid := by
        apply utct_noop _ cid csU hcsU
        left
        rw [hsetX]
        exact hpre.symm
      rw [hnoop, hcsU] at hcs'
      cases hcs'
      exact hpre
    · obtain ⟨cfg, hcfg⟩ :=
        gradFor_isSome (upsertStats db cid).settings.effGraduation
          (tierOf csU.totalVisits (upsertStats db cid).settings.effThresholds)
          (by rw [hsetX]; exact hnb)
          (by rw [hsetX]; exact hkeys.1) (by rw [hsetX]; exact hkeys.2)
      have hupd := utct_update_stats_self (upsertStats db cid) cid csU cfg hcsU
        (by rw [hsetX]; exact hne) hcfg
      rw [hupd] at hcs'
      cases hcs'
      simp only [hsetX]
  · rw [utct_stats_ne (upsertStats db c) c cid hc,
        upsertStats_stats_ne db c cid hc] at hcs'
    exact hinv cs' hcs'

theorem applyVisits_tierInv (db : DB) (l : List Nat) (cid : Nat)
    (hkeys : GradKeysPresent db.settings) (hinv : TierInv db cid) :
    TierInv (applyVisits db l) cid := by
  induction l generalizing db with
  | nil => exact hinv
  | cons x xs ih =>
    have hstep : applyVisits db (x :: xs) = applyVisits (handle_new_visit db x) xs := rfl
    rw [hstep]
    refine ih (handle_new_visit db x) ?_ (hnv_tierInv_step db x cid hkeys hinv)
    unfold GradKeysPresent
    rw [hnv_settings]
    exact hkeys

theorem utct_view (db : DB) (cid i : Nat) :
    (update_customer_tier db cid).totalVisitsView i = db.totalVisitsView i := by
  unfold update_customer_tier DB.totalVisitsView
  split
  · rfl
  next cs heq =>
    dsimp only
    split
    · rfl
    · split_ifs <;> simp only [insertReward] <;> by_cases h : i = cid <;>
        simp [h, heq]

theorem cmr_view (db : DB) (cid i : Nat) :
    (check_milestone_rewards db cid).totalVisitsView i = db.totalVisitsView i := by
  unfold DB.totalVisitsView
  rw [cmr_stats]

theorem hnv_view_self (db : DB) (c : Nat) :
    (handle_new_visit db c).totalVisitsView c = db.totalVisitsView c + 1 := by
  unfold handle_new_visit
  rw [cmr_view, utct_view, upsertStats_view_self]

theorem hnv_view_ne (db : DB) (c i : Nat) (h : i ≠ c) :
    (handle_new_visit db c).totalVisitsView i = db.totalVisitsView i := by
  unfold handle_new_visit
  rw [cmr_view, utct_view]
  unfold DB.totalVisitsView
  rw [upsertStats_stats_ne db c i h]

theorem applyVisits_view (db : DB) (l : List Nat) (cid : Nat) :
    (applyVisits db l).totalVisitsView cid =
      db.totalVisitsView cid + (l.count cid : Int) := by
  induction l generalizing db with
  | nil => simp [applyVisits]
  | cons x xs ih =>
    have hstep : applyVisits db (x :: xs) = applyVisits (handle_new_visit db x) xs := rfl
    rw [hstep, ih]
    by_cases h : x = cid
    · subst h
      rw [hnv_view_self]
      simp [List.count_cons]
      omega
    · rw [hnv_view_ne db x cid (fun he => h he.symm)]
      simp [List.count_cons, h]

theorem cmr_stats_none (db : DB) (cid : Nat) (h : db.stats cid = none) :
    check_milestone_rewards db cid = db := by
  unfold check_milestone_rewards
  rw [h]

theorem cmr_noop_guard (db : DB) (cid : Nat) (cs : CustomerStats)
    (h : db.stats cid = some cs)
    (hhit : milestoneGuardHit db.rewards cid cs.totalVisits = true) :
    check_milestone_rewards db cid = db := by
  unfold check_milestone_rewards
  rw [h]
  dsimp only
  split_ifs with h1 <;> rfl

theorem cmr_noop_notmul (db : DB) (cid : Nat) (cs : CustomerStats)
    (h : db.stats cid = some cs)
    (hnm : ¬(cs.totalVisits > 0 ∧
      cs.totalVisits % (db.settings.milestoneFrequency.getD 6) = 0)) :
    check_milestone_rewards db cid = db := by
  unfold check_milestone_rewards
  rw [h]
  dsimp only
  rw [if_neg hnm]

theorem cmr_insert (db : DB) (cid : Nat) (cs : CustomerStats)
    (h : db.stats cid = some cs)
    (hmul : cs.totalVisits > 0 ∧
      cs.totalVisits % (db.settings.milestoneFrequency.getD 6) = 0)
    (hnone : milestoneGuardHit db.rewards cid cs.totalVisits = false) :
    check_milestone_rewards db cid =
      insertReward db (milestoneReward db cid cs.totalVisits) := by
  unfold check_milestone_rewards
  rw [h]
  dsimp only
  rw [if_pos hmul, if_neg (by simp [hnone])]
  rfl

theorem cmr_idempotent (db : DB) (cid : Nat) :
    check_milestone_rewards (check_milestone_rewards db cid) cid =
      check_milestone_rewards db cid := by
  cases h : db.stats cid with
  | none =>
    rw [cmr_stats_none db cid h, cmr_stats_none db cid h]
  | some cs =>
    by_cases hmul : cs.totalVisits > 0 ∧
        cs.totalVisits % (db.settings.milestoneFrequency.getD 6) = 0
    · by_cases hhit : milestoneGuardHit db.rewards cid cs.totalVisits = true
      · rw [cmr_noop_guard db cid cs h hhit, cmr_noop_guard db cid cs h hhit]
      · have hfalse : milestoneGuardHit db.rewards cid cs.totalVisits = false := by
          simpa using hhit
        rw [cmr_insert db cid cs h hmul hfalse]
        apply cmr_noop_guard (insertReward db (milestoneReward db cid cs.totalVisits)) cid cs h
        unfold milestoneGuardHit insertReward milestoneReward baseReward
        simp
    · rw [cmr_noop_notmul db cid cs h hmul, cmr_noop_notmul db cid cs h hmul]

theorem utct_rewards_append (db : DB) (cid : Nat) :
    ∃ pre, (update_customer_tier db cid).rewards = pre ++ db.rewards := by
  unfold update_customer_tier
  split
  · exact ⟨[], rfl⟩
  · dsimp only
    split
    · exact ⟨[], rfl⟩
    · split_ifs <;> first
        | exact ⟨[], rfl⟩
        | exact ⟨[_], rfl⟩

theorem cmr_rewards_append (db : DB) (cid : Nat) :
    ∃ pre, (check_milestone_rewards db cid).rewards = pre ++ db.rewards := by
  unfold check_milestone_rewards
  split
  · exact ⟨[], rfl⟩
  · dsimp only
    split_ifs <;> first
      | exact ⟨[], rfl⟩
      | exact ⟨[_], rfl⟩

theorem hnv_rewards_append (db : DB) (cid : Nat) :
    ∃ pre, (handle_new_visit db cid).rewards = pre ++ db.rewards := by
  unfold handle_new_visit
  obtain ⟨p1, h1⟩ := cmr_rewards_append (update_customer_tier (upsertStats db cid) cid) cid
  obtain ⟨p2, h2⟩ := utct_rewards_append (upsertStats db cid) cid
  rw [h1, h2, upsertStats_rewards]
  exact ⟨p1 ++ p2, by simp⟩

theorem hnv_mem_rewards (db : DB) (cid : Nat) (r : Reward) (h : r ∈ db.rewards) :
    r ∈ (handle_new_visit db cid).rewards := by
  obtain ⟨pre, hpre⟩ := hnv_rewards_append db cid
  rw [hpre]
  exact List.mem_append_right pre h

/-- Shared helper for the reward-claim path of `handle_new_order`: an available
reward whose id the order references is mapped to its claimed version. -/
theorem claim_on_order_mem (db : DB) (o : Order) (r : Reward)
    (hmem : r ∈ db.rewards) (hrid : o.appliedRewardId = some r.id)
    (havail : r.status = RewardStatus.available) :
    { r with status := RewardStatus.claimed, claimedAt := some db.now,
             appliedToOrderId := some o.id } ∈ (handle_new_order db o).rewards := by
  unfold handle_new_order
  rw [hrid]
  dsimp only
  cases hc : o.customerProfileId with
  | none =>
    dsimp only
    have : claimReward db.now o.id r.id r =
        { r with status := RewardStatus.claimed, claimedAt := some db.now,
                 appliedToOrderId := some o.id } := by
      unfold claimReward
      rw [if_pos ⟨rfl, havail⟩]
    rw [← this]
    exact List.mem_map_of_mem (claimReward db.now o.id r.id) hmem
  | some cid =>
    dsimp only
    set dbv : DB :=
      { db with visits :=
          { customerId := cid,
            notes := some ("Order #" ++ toString o.id ++ " - Table " ++ o.tableNumber) }
          :: db.visits } with hdbv
    have hmem2 : r ∈ (handle_new_visit dbv cid).rewards :=
      hnv_mem_rewards dbv cid r hmem
    have hnow2 : (handle_new_visit dbv cid).now = db.now := hnv_now dbv cid
    rw [hnow2]
    have : claimReward db.now o.id r.id r =
        { r with status := RewardStatus.claimed, claimedAt := some db.now,
                 appliedToOrderId := some o.id } := by
      unfold claimReward
      rw [if_pos ⟨rfl, havail⟩]
    rw [← this]
    exact List.mem_map_of_mem (claimReward db.now o.id r.id) hmem2

/-- Shared helper: a reward row that the order does not reference, or that is
no longer available, survives `handle_new_order` unchanged. -/
theorem claim_on_order_noop (db : DB) (o : Order) (r : Reward)
    (hmem : r ∈ db.rewards)
    (hcase : o.appliedRewardId ≠ some r.id ∨ r.status ≠ RewardStatus.available) :
    r ∈ (handle_new_order db o).rewards := by
  unfold handle_new_order
  cases hc : o.customerProfileId with
  | none =>
    dsimp only
    cases hrid : o.appliedRewardId with
    | none => exact hmem
    | some rid =>
      dsimp only
      have : claimReward db.now o.id rid r = r := by
        unfold claimReward
        rw [if_neg]
        rintro ⟨h1, h2⟩
        rcases hcase with hcase | hcase
        · exact hcase (by rw [hrid, h1])
        · exact hcase h2
      rw [← this]
      exact List.mem_map_of_mem (claimReward db.now o.id rid) hmem
  | some cid =>
    dsimp only
    set dbv : DB :=
      { db with visits :=
          { customerId := cid,
            notes := some ("Order #" ++ toString o.id ++ " - Table " ++ o.tableNumber) }
          :: db.visits } with hdbv
    have hmem2 : r ∈ (handle_new_visit dbv cid).rewards :=
      hnv_mem_rewards dbv cid r hmem
    cases hrid : o.appliedRewardId with
    | none => exact hmem2
    | some rid =>
      dsimp only
      have : claimReward (handle_new_visit dbv cid).now o.id rid r = r := by
        unfold claimReward
        rw [if_neg]
        rintro ⟨h1, h2⟩
        rcases hcase with hcase | hcase
        · exact hcase (by rw [hrid, h1])
        · exact hcase h2
      rw [← this]
      exact List.mem_map_of_mem (claimReward (handle_new_visit dbv cid).now o.id rid) hmem2

theorem round2_nonneg (x : Rat) (hx : 0 ≤ x) : 0 ≤ round2 x := by
  unfold round2
  rw [if_pos hx]
  apply div_nonneg
  · have h1 : (0 : Rat) ≤ x * 100 + 1/2 := by nlinarith
    exact_mod_cast Int.floor_nonneg.mpr h1
  · norm_num

theorem find?_eq_of_unique {α : Type} (p : α → Bool) (l : List α) (r : α)
    (hmem : r ∈ l) (hr : p r = true) (huniq : ∀ x ∈ l, p x = true → x = r) :
    l.find? p = some r := by
  induction l with
  | nil => cases hmem
  | cons a l ih =>
    by_cases ha : p a = true
    · have haeq : a = r := huniq a (List.mem_cons_self a l) ha
      subst haeq
      simp [List.find?_cons, ha]
    · have hane : p a = false := by simpa using ha
      rw [List.find?_cons]
      rw [hane]
      cases List.mem_cons.mp hmem with
      | inl h => exact absurd (h ▸ hr) ha
      | inr h =>
        exact ih h (fun x hx hpx => huniq x (List.mem_cons_of_mem a hx) hpx)

theorem milestoneGuardHit_false_iff (rewards : List Reward) (cid : Nat) (v : Int) :
    milestoneGuardHit rewards cid v = false ↔
      ∀ r ∈ rewards, ¬(r.customerId = cid ∧ r.milestoneVisits = some v ∧
        r.isBirthdayReward = false ∧ r.isReferralReward = false) := by
  unfold milestoneGuardHit
  rw [List.any_eq_false]
  constructor
  · intro h r hr hcontra
    apply h r hr
    simp only [Bool.and_eq_true, beq_iff_eq]
    exact ⟨⟨⟨hcontra.1, hcontra.2.1⟩, hcontra.2.2.1⟩, hcontra.2.2.2⟩
  · intro h r hr hb
    simp only [Bool.and_eq_true, beq_iff_eq] at hb
    exact h r hr ⟨hb.1.1.1, hb.1.1.2, hb.1.2, hb.2⟩

theorem utct_update_rewards (db : DB) (cid : Nat) (cs : CustomerStats) (c : GradDef)
    (h : db.stats cid = some cs)
    (hne : tierOf cs.totalVisits db.settings.effThresholds ≠ cs.currentTier)
    (hcfg : gradFor db.settings.effGraduation (tierOf cs.totalVisits db.settings.effThresholds) =
      some c) :
    (update_customer_tier db cid).rewards =
      (if c.rewardType = "fixed" then [tierRewardFixed db cid c]
       else if c.rewardType = "percentage" then [tierRewardPct db cid c]
       else []) ++ db.rewards := by
  rw [utct_update db cid cs c h hne hcfg]
  dsimp only
  split_ifs <;> rfl

theorem hnu_nocode (db : DB) (userId : Nat) (email : String) (meta : UserMeta)
    (newCode : String) (hmcode : meta.referredByCode = none) :
    handle_new_user db userId email meta newCode =
      { db with profiles := newProfile db userId email meta newCode :: db.profiles,
                nextProfileId := db.nextProfileId + 1,
                roles := (userId, "customer") :: db.roles } := by
  unfold handle_new_user newProfile
  rw [hmcode]

theorem hnu_notfound (db : DB) (userId : Nat) (email : String) (meta : UserMeta)
    (code newCode : String)
    (hmcode : meta.referredByCode = some code)
    (hnc : newCode ≠ code)
    (hfind : db.profiles.find? (fun q => q.referralCode == code) = none) :
    handle_new_user db userId email meta newCode =
      { db with profiles := newProfile db userId email meta newCode :: db.profiles,
                nextProfileId := db.nextProfileId + 1,
                roles := (userId, "customer") :: db.roles } := by
  unfold handle_new_user newProfile
  rw [hmcode]
  dsimp only
  rw [List.find?_cons_of_neg, hfind]
  simp [hnc]

theorem hnu_found (db : DB) (userId : Nat) (email : String) (meta : UserMeta)
    (code newCode : String) (p : Profile)
    (hmcode : meta.referredByCode = some code)
    (hnc : newCode ≠ code)
    (hfind : db.profiles.find? (fun q => q.referralCode == code) = some p) :
    handle_new_user db userId email meta newCode =
      insertReward
        { db with
          profiles := newProfile db userId email meta newCode :: db.profiles,
          nextProfileId := db.nextProfileId + 1,
          roles := (userId, "customer") :: db.roles,
          referrals :=
            { referrerId := p.id, referredId := db.nextProfileId, referralCode := code,
              rewardGranted := true } :: db.referrals }
        (referralReward db p.id) := by
  unfold handle_new_user newProfile referralReward
  rw [hmcode]
  dsimp only
  rw [List.find?_cons_of_neg, hfind]
  · rfl
  · simp [hnc]

theorem pgLeast_eq_min (a b : Rat) : pgLeast a b = min a b := by
  unfold pgLeast
  rw [min_def]

theorem apply_reward_bounds (rewards : List Reward) (now : Int) (rid : Nat)
    (s : Rat) (items : List (String × Rat)) (hs : 0 ≤ s)
    (hconf : ∀ r ∈ rewards,
      (∀ rv, r.rewardValue = some rv → 0 ≤ rv) ∧
      (∀ p, r.discountPercentage = some p → 0 ≤ p)) :
    0 ≤ (apply_reward_to_order rewards now rid s items).1 ∧
      (apply_reward_to_order rewards now rid s items).1 ≤ s := by
  unfold apply_reward_to_order
  simp only [pgLeast_eq_min]
  cases hfind : rewards.find? (rewardSelectable now rid) with
  | none => exact ⟨le_refl 0, hs⟩
  | some r =>
    have hmem : r ∈ rewards := List.mem_of_find?_eq_some hfind
    obtain ⟨hrv, hdp⟩ := hconf r hmem
    dsimp only
    split_ifs with hmin
    · exact ⟨le_refl 0, hs⟩
    · cases hval : r.rewardValue with
      | some rv =>
        exact ⟨le_min (le_min (hrv rv hval) hs) hs, min_le_right _ _⟩
      | none =>
        cases hp : r.discountPercentage with
        | some q =>
          have hq0 : (0 : Rat) ≤ (q : Rat) := by exact_mod_cast hdp q hp
          have h0 : 0 ≤ round2 (s * (q : Rat) / 100) := by
            apply round2_nonneg
            apply div_nonneg (mul_nonneg hs hq0)
            norm_num
          exact ⟨le_min h0 hs, min_le_right _ _⟩
        | none => exact ⟨le_refl 0, hs⟩

theorem utct_stats_map_self (db : DB) (cid : Nat) :
    ((update_customer_tier db cid).stats cid).map (fun cs => cs.totalVisits) =
      (db.stats cid).map (fun cs => cs.totalVisits) := by
  unfold update_customer_tier
  split
  · rfl
  next cs heq =>
    dsimp only
    split
    · rfl
    · split_ifs <;> simp [insertReward, heq]

/-- C1 (amended): for every customer and every sequence of visit inserts, the
stored `current_tier` equals `tierOf(total_visits, thresholds)` immediately
after each visit, PROVIDED the graduation-rewards configuration in effect
defines both upgrade transitions (as the fallback does).  The proviso is
forced: the source updates `customer_stats` only under `upgrade_config IS NOT
NULL`, so with a graduation configuration lacking the key for the computed
tier the stored tier is silently left stale (see the counterexample). -/
theorem tier_consistency_with_configured_graduations (db : DB) (l : List Nat)
    (cid : Nat) (hkeys : GradKeysPresent db.settings) (hinv : TierInv db cid) :
    TierInv (applyVisits db l) cid :=
  applyVisits_tierInv db l cid hkeys hinv

/-- Witness for C1: ten visits from an empty database under fallback settings
leave the invariant intact. -/
theorem tier_consistency_witness :
    GradKeysPresent (initDB emptySettings).settings ∧
    TierInv (applyVisits (initDB emptySettings) (List.replicate 10 1)) 1 :=
  ⟨⟨rfl, rfl⟩,
   tier_consistency_with_configured_graduations (initDB emptySettings)
     (List.replicate 10 1) 1 ⟨rfl, rfl⟩ (by intro cs h; simp [initDB] at h)⟩

/-- C1 counterexample: with thresholds granting silver at one visit and a
stored graduation configuration with no transition keys, one visit leaves
`total_visits = 1` but the stored tier stays bronze although
`tierOf(1, thresholds) = silver` — the claim as stated is false. -/
theorem tier_consistency_counterexample :
    ((handle_new_visit (initDB settingsNoGradKeys) 1).stats 1).map
        (fun cs => (cs.totalVisits, cs.currentTier)) = some (1, Tier.bronze) ∧
    tierOf 1 (initDB settingsNoGradKeys).settings.effThresholds = Tier.silver ∧
    Tier.bronze ≠ Tier.silver := by decide

/-- C2 (amended): the discount returned by `apply_reward_to_order` satisfies
`0 ≤ discount ≤ subtotal` for every subtotal `s ≥ 0` PROVIDED every reward's
fixed value and percentage, when present, are nonnegative.  The proviso is
forced: the table admits negative values and the function returns
`LEAST(reward_value, subtotal)`, which is negative for a negative stored value
(see the counterexample). -/
theorem discount_bounds_for_nonnegative_configs (rewards : List Reward)
    (now : Int) (rid : Nat) (s : Rat) (items : List (String × Rat)) (hs : 0 ≤ s)
    (hconf : ∀ r ∈ rewards,
      (∀ rv, r.rewardValue = some rv → 0 ≤ rv) ∧
      (∀ q, r.discountPercentage = some q → 0 ≤ q)) :
    0 ≤ (apply_reward_to_order rewards now rid s items).1 ∧
      (apply_reward_to_order rewards now rid s items).1 ≤ s :=
  apply_reward_bounds rewards now rid s items hs hconf

/-- Witness for C2: an available $10 reward on a $25 subtotal yields a discount
within bounds. -/
theorem discount_bounds_witness :
    (0 : Rat) ≤ 25 ∧
    0 ≤ (apply_reward_to_order [tenReward] 0 5 25 []).1 ∧
    (apply_reward_to_order [tenReward] 0 5 25 []).1 ≤ 25 := by
  have hconf : ∀ r ∈ [tenReward],
      (∀ rv, r.rewardValue = some rv → 0 ≤ rv) ∧
      (∀ q, r.discountPercentage = some q → 0 ≤ q) := by
    intro r hr
    rw [List.mem_singleton] at hr
    subst hr
    constructor
    · intro rv hv
      have h10 : some (10 : Rat) = some rv := hv
      have : rv = 10 := by injection h10 with h; exact h.symm
      rw [this]
      norm_num
    · intro q hq
      simp [tenReward, baseReward] at hq
  exact ⟨by norm_num,
    (discount_bounds_for_nonnegative_configs [tenReward] 0 5 25 [] (by norm_num) hconf).1,
    (discount_bounds_for_nonnegative_configs [tenReward] 0 5 25 [] (by norm_num) hconf).2⟩

/-- C2 counterexample: a reward with stored `reward_value = -5` on a subtotal
of 10 is accepted and produces discount -5, violating `0 ≤ discount`. -/
theorem discount_bounds_counterexample :
    ((0 : Rat) ≤ 10) ∧
    (apply_reward_to_order [negativeReward] 0 5 10 []).1 = -5 ∧
    ¬(0 ≤ (apply_reward_to_order [negativeReward] 0 5 10 []).1) := by decide

/-- C3 (amended): when the Tier Evaluator runs on an existing stats row, then
(a) if the computed tier equals the stored tier, OR no graduation definition
exists at the key selected by the computed tier (`bronze_to_silver` for
silver, `silver_to_gold` for gold, nothing for bronze), the database is left
completely unchanged — in particular, contrary to the claim as stated, the
stored tier and timestamp are NOT updated when the definition is missing; and
(b) if the computed tier differs and that definition exists, the stored tier
and tier-updated timestamp are updated and exactly one graduation reward
built from the definition is emitted when its `reward_type` is `fixed` or
`percentage`, and none otherwise.  The definition is selected by the computed
tier alone, not by the (from, to) transition pair. -/
theorem tier_evaluator_spec (db : DB) (cid : Nat) (cs : CustomerStats)
    (h : db.stats cid = some cs) :
    (tierOf cs.totalVisits db.settings.effThresholds = cs.currentTier ∨
      gradFor db.settings.effGraduation
        (tierOf cs.totalVisits db.settings.effThresholds) = none →
      update_customer_tier db cid = db) ∧
    (∀ c, tierOf cs.totalVisits db.settings.effThresholds ≠ cs.currentTier →
      gradFor db.settings.effGraduation
        (tierOf cs.totalVisits db.settings.effThresholds) = some c →
      (update_customer_tier db cid).stats cid =
        some { cs with currentTier := tierOf cs.totalVisits db.settings.effThresholds,
                       tierUpdatedAt := db.now, updatedAt := db.now } ∧
      (update_customer_tier db cid).rewards =
        (if c.rewardType = "fixed" then [tierRewardFixed db cid c]
         else if c.rewardType = "percentage" then [tierRewardPct db cid c]
         else []) ++ db.rewards) :=
  ⟨utct_noop db cid cs h,
   fun c hne hcfg =>
     ⟨utct_update_stats_self db cid cs c h hne hcfg,
      utct_update_rewards db cid cs c h hne hcfg⟩⟩

/-- Witness for C3: a customer at 6 visits under default settings computes
bronze, equal to the stored tier, so the evaluator is a no-op. -/
theorem tier_evaluator_witness :
    dbSixVisitsStored.stats 1 = some csSix ∧
    update_customer_tier dbSixVisitsStored 1 = dbSixVisitsStored :=
  ⟨by decide,
   (tier_evaluator_spec dbSixVisitsStored 1 csSix (by decide)).1 (Or.inl (by decide))⟩

/-- C3 counterexample: customer 1 has 10 visits stored as bronze under default
thresholds, but the stored graduation configuration has no transition keys;
the computed tier (silver) differs from the stored tier, yet the evaluator
changes nothing — no stored-tier update, no timestamp update, no reward —
refuting the claim that a differing computed tier always updates the stored
tier and timestamp. -/
theorem tier_evaluator_counterexample :
    tierOf 10 dbGradMissing.settings.effThresholds = Tier.silver ∧
    (dbGradMissing.stats 1).map (fun cs => cs.currentTier) = some Tier.bronze ∧
    ((update_customer_tier dbGradMissing 1).stats 1).map
        (fun cs => (cs.currentTier, cs.tierUpdatedAt)) = some (Tier.bronze, 0) ∧
    (update_customer_tier dbGradMissing 1).rewards = [] := by decide

/-- C4: when the Milestone Evaluator runs with `total_visits` a positive exact
multiple of the milestone frequency (fallback 6) and no existing
non-birthday, non-referral reward of that customer has `milestone_visits`
equal to that count, it creates exactly one milestone reward valued from
settings (fallback 10.00) with `applicable_to = 'all'` and
`minimum_order_value = 0`; and the evaluator is idempotent, so a second
invocation at the same count creates nothing further. -/
theorem milestone_evaluator_spec (db : DB) (cid : Nat) (cs : CustomerStats)
    (h : db.stats cid = some cs)
    (hpos : 0 < cs.totalVisits)
    (hmul : db.settings.milestoneFrequency.getD 6 ∣ cs.totalVisits)
    (hnone : ∀ r ∈ db.rewards, ¬(r.customerId = cid ∧
      r.milestoneVisits = some cs.totalVisits ∧
      r.isBirthdayReward = false ∧ r.isReferralReward = false)) :
    (check_milestone_rewards db cid).rewards =
      milestoneReward db cid cs.totalVisits :: db.rewards ∧
    (milestoneReward db cid cs.totalVisits).rewardValue =
      some (db.settings.milestoneRewardValue.getD 10) ∧
    (milestoneReward db cid cs.totalVisits).applicableTo = "all" ∧
    (milestoneReward db cid cs.totalVisits).minimumOrderValue = 0 ∧
    check_milestone_rewards (check_milestone_rewards db cid) cid =
      check_milestone_rewards db cid := by
  have hguard : milestoneGuardHit db.rewards cid cs.totalVisits = false :=
    (milestoneGuardHit_false_iff db.rewards cid cs.totalVisits).mpr hnone
  have hmod : cs.totalVisits % (db.settings.milestoneFrequency.getD 6) = 0 :=
    Int.emod_eq_zero_of_dvd hmul
  refine ⟨?_, rfl, rfl, rfl, cmr_idempotent db cid⟩
  rw [cmr_insert db cid cs h ⟨hpos, hmod⟩ hguard]
  rfl

/-- Witness for C4: customer 1 at exactly 6 visits with no prior rewards gets
one milestone reward. -/
theorem milestone_evaluator_witness :
    dbSixVisitsStored.stats 1 = some csSix ∧
    (check_milestone_rewards dbSixVisitsStored 1).rewards =
      milestoneReward dbSixVisitsStored 1 csSix.totalVisits ::
        dbSixVisitsStored.rewards :=
  ⟨by decide,
   (milestone_evaluator_spec dbSixVisitsStored 1 csSix (by decide) (by decide)
     (by decide) (by intro r hr; simp [dbSixVisitsStored, initDB] at hr)).1⟩

/-- C5: on a visit insert the Visit Recorder creates the stats row with
`total_visits = 1` when absent and increments it by exactly 1 otherwise; over
any sequence of visit inserts (arbitrarily interleaved across customers) a
customer's `total_visits` rises by exactly the number of their visits; and
the recorder invokes the Tier Evaluator and then the Milestone Evaluator, in
that order, after the upsert. -/
theorem visit_recorder_spec (db : DB) (cid : Nat) (l : List Nat) :
    (db.stats cid = none →
      ((handle_new_visit db cid).stats cid).map (fun cs => cs.totalVisits) = some 1) ∧
    (∀ cs, db.stats cid = some cs →
      ((handle_new_visit db cid).stats cid).map (fun cs1 => cs1.totalVisits) =
        some (cs.totalVisits + 1)) ∧
    (applyVisits db l).totalVisitsView cid =
      db.totalVisitsView cid + (l.count cid : Int) ∧
    handle_new_visit db cid =
      check_milestone_rewards (update_customer_tier (upsertStats db cid) cid) cid := by
  refine ⟨?_, ?_, applyVisits_view db l cid, rfl⟩
  · intro h0
    unfold handle_new_visit
    rw [cmr_stats, utct_stats_map_self, upsertStats_stats_none db cid h0]
    rfl
  · intro cs h0
    unfold handle_new_visit
    rw [cmr_stats, utct_stats_map_self, upsertStats_stats_some db cid cs h0]
    rfl

/-- Witness for C5: a first visit creates the row at 1; two visits for
customer 1 against an empty database leave `total_visits = 2`. -/
theorem visit_recorder_witness :
    ((handle_new_visit (initDB emptySettings) 1).stats 1).map
        (fun cs => cs.totalVisits) = some 1 ∧
    (applyVisits (initDB emptySettings) [1, 1]).totalVisitsView 1 =
      (initDB emptySettings).totalVisitsView 1 + (([1, 1] : List Nat).count 1 : Int) :=
  ⟨(visit_recorder_spec (initDB emptySettings) 1 []).1 (by decide),
   (visit_recorder_spec (initDB emptySettings) 1 [1, 1]).2.2.1⟩

theorem rewardSelectable_true_iff (now : Int) (rid : Nat) (r : Reward) :
    rewardSelectable now rid r = true ↔
      r.id = rid ∧ r.status = RewardStatus.available ∧
        (r.expirationDate = none ∨ ∃ e, r.expirationDate = some e ∧ now < e) := by
  unfold rewardSelectable
  simp only [Bool.and_eq_true, beq_iff_eq]
  constructor
  · rintro ⟨⟨h1, h2⟩, h3⟩
    refine ⟨h1, h2, ?_⟩
    cases he : r.expirationDate with
    | none => exact Or.inl rfl
    | some e =>
      rw [he] at h3
      simp only [decide_eq_true_eq] at h3
      exact Or.inr ⟨e, rfl, h3⟩
  · rintro ⟨h1, h2, h3⟩
    refine ⟨⟨h1, h2⟩, ?_⟩
    rcases h3 with h3 | ⟨e, he, hlt⟩
    · rw [h3]
    · rw [he]
      simpa using hlt

/-- C7: `apply_reward_to_order` is a pure read-only function of the rewards
table, the reward id, and the subtotal (the items argument is ignored, and no
state is produced), evaluated in order: a missing, unavailable, or
past-expiration reward yields `(0, unavailable-or-expired)`; a subtotal below
the minimum yields `(0, minimum-error carrying the required minimum)`;
otherwise the discount is `min(reward_value, subtotal)` when the fixed value
is set, else `min(round2(subtotal×percentage/100), subtotal)` when the
percentage is set, else `(0, invalid-configuration)`. -/
theorem apply_reward_engine_spec (rewards : List Reward) (now : Int) (rid : Nat)
    (s : Rat) (items : List (String × Rat)) :
    ((∀ r ∈ rewards, r.id = rid →
        r.status ≠ RewardStatus.available ∨
          ∃ e, r.expirationDate = some e ∧ e < now) →
      apply_reward_to_order rewards now rid s items =
        (0, some RewardError.notAvailableOrExpired)) ∧
    (∀ r ∈ rewards, r.id = rid → r.status = RewardStatus.available →
      (r.expirationDate = none ∨ ∃ e, r.expirationDate = some e ∧ now < e) →
      (∀ r2 ∈ rewards, r2.id = rid → r2 = r) →
      (s < r.minimumOrderValue →
        apply_reward_to_order rewards now rid s items =
          (0, some (RewardError.minimumOrderValue r.minimumOrderValue))) ∧
      (r.minimumOrderValue ≤ s →
        (∀ rv, r.rewardValue = some rv →
          apply_reward_to_order rewards now rid s items = (min rv s, none)) ∧
        (r.rewardValue = none → ∀ q, r.discountPercentage = some q →
          apply_reward_to_order rewards now rid s items =
            (min (round2 (s * (q : Rat) / 100)) s, none)) ∧
        (r.rewardValue = none → r.discountPercentage = none →
          apply_reward_to_order rewards now rid s items =
            (0, some RewardError.invalidConfiguration)))) := by
  constructor
  · intro hbad
    have hnone : rewards.find? (rewardSelectable now rid) = none := by
      rw [List.find?_eq_none]
      intro x hx hsel
      obtain ⟨h1, h2, h3⟩ := (rewardSelectable_true_iff now rid x).mp hsel
      rcases hbad x hx h1 with hb | ⟨e, he, hlt⟩
      · exact hb h2
      · rcases h3 with h3 | ⟨e2, he2, hlt2⟩
        · rw [h3] at he
          cases he
        · rw [he2] at he
          cases he
          exact absurd hlt2 (lt_asymm hlt)
    unfold apply_reward_to_order
    rw [hnone]
  · intro r hr hid hav hexp huniq
    have hsel : rewardSelectable now rid r = true :=
      (rewardSelectable_true_iff now rid r).mpr ⟨hid, hav, hexp⟩
    have hfind : rewards.find? (rewardSelectable now rid) = some r :=
      find?_eq_of_unique (rewardSelectable now rid) rewards r hr hsel
        (fun x hx hpx => huniq x hx ((rewardSelectable_true_iff now rid x).mp hpx).1)
    constructor
    · intro hmin
      unfold apply_reward_to_order
      rw [hfind]
      dsimp only
      rw [if_pos hmin]
    · intro hge
      refine ⟨?_, ?_, ?_⟩
      · intro rv hrv
        unfold apply_reward_to_order
        rw [hfind]
        dsimp only
        rw [if_neg (not_lt.mpr hge), hrv]
        dsimp only
        simp only [pgLeast_eq_min]
        rw [min_assoc, min_self]
      · intro hnone2 q hq
        unfold apply_reward_to_order
        rw [hfind]
        dsimp only
        rw [if_neg (not_lt.mpr hge), hnone2]
        dsimp only
        rw [hq]
        dsimp only
        simp only [pgLeast_eq_min]
      · intro hnone2 hnoq
        unfold apply_reward_to_order
        rw [hfind]
        dsimp only
        rw [if_neg (not_lt.mpr hge), hnone2]
        dsimp only
        rw [hnoq]

/-- Witness for C7: the $10 reward applied to a $25 subtotal returns
discount 10 with no error. -/
theorem apply_reward_engine_witness :
    apply_reward_to_order [tenReward] 0 5 25 [] = (10, none) := by
  have h := (apply_reward_engine_spec [tenReward] 0 5 25 []).2 tenReward
    (by decide) (by decide) (by decide)
    (Or.inr ⟨30, by decide, by decide⟩) (by decide)
  have h2 := (h.2 (by decide)).1 10 (by decide)
  rw [h2, min_eq_left (by norm_num : (10 : Rat) ≤ 25)]

/-- C6: the Order-to-Visit Bridge moves a reward's status only one way.  When
an inserted order references a reward that is still `available`, the bridge
produces its claimed version, stamped with the claim time and the order id;
when the order does not reference the reward, or the reward is no longer
`available`, the row survives unchanged (the conditional UPDATE is a silent
no-op). -/
theorem reward_claim_one_way (db : DB) (o : Order) (r : Reward)
    (hmem : r ∈ db.rewards) :
    (o.appliedRewardId = some r.id → r.status = RewardStatus.available →
      { r with status := RewardStatus.claimed, claimedAt := some db.now,
               appliedToOrderId := some o.id } ∈ (handle_new_order db o).rewards) ∧
    ((o.appliedRewardId ≠ some r.id ∨ r.status ≠ RewardStatus.available) →
      r ∈ (handle_new_order db o).rewards) :=
  ⟨claim_on_order_mem db o r hmem, claim_on_order_noop db o r hmem⟩

/-- Witness for C6: an order referencing the available $10 reward claims it,
stamping order id 100. -/
theorem reward_claim_witness :
    tenReward ∈ dbWithTen.rewards ∧
    { tenReward with
      status := RewardStatus.claimed,
      claimedAt := some dbWithTen.now,
      appliedToOrderId := some orderTen.id } ∈
        (handle_new_order dbWithTen orderTen).rewards :=
  ⟨by decide,
   (reward_claim_one_way dbWithTen orderTen tenReward (by decide)).1 (by decide) (by decide)⟩

/-- C10: the reward-claim step of `handle_new_order` checks only the reward id
and its `available` status — never that the reward's owning `customer_id`
matches the order's `customer_profile_id`, nor that the order has a customer
at all; the ownership-mismatch hypothesis below is not needed by the proof,
which is exactly the point. -/
theorem order_claims_reward_without_ownership_check (db : DB) (o : Order)
    (r : Reward) (hmem : r ∈ db.rewards) (hrid : o.appliedRewardId = some r.id)
    (havail : r.status = RewardStatus.available)
    (_hmismatch : o.customerProfileId = none ∨
      ∃ b, o.customerProfileId = some b ∧ b ≠ r.customerId) :
    { r with status := RewardStatus.claimed, claimedAt := some db.now,
             appliedToOrderId := some o.id } ∈ (handle_new_order db o).rewards :=
  claim_on_order_mem db o r hmem hrid havail

/-- Witness for C10: customer 2's order claims customer 1's available reward. -/
theorem order_claims_cross_customer_witness :
    tenReward.customerId = 1 ∧
    orderCross.customerProfileId = some 2 ∧
    { tenReward with
      status := RewardStatus.claimed,
      claimedAt := some dbWithTen.now,
      appliedToOrderId := some orderCross.id } ∈
        (handle_new_order dbWithTen orderCross).rewards :=
  ⟨by decide, by decide,
   order_claims_reward_without_ownership_check dbWithTen orderCross tenReward
     (by decide) (by decide) (by decide) (Or.inr ⟨2, rfl, by decide⟩)⟩

/-- C8: at signup with a referral code that resolves to a profile, exactly one
referral record (with `reward_granted = true`) and exactly one referral
reward for the referrer — valued from settings with fallback 15.00 — are
created, along with the new profile; with a code that resolves to no profile,
signup still succeeds (profile created), and no referral record and no reward
appear; in this model the function is total, so no error reaches the caller
in either case. -/
theorem referral_resolver_spec (db : DB) (userId : Nat) (email : String)
    (meta : UserMeta) (code newCode : String)
    (hmcode : meta.referredByCode = some code) (hnc : newCode ≠ code) :
    (∀ p, db.profiles.find? (fun q => q.referralCode == code) = some p →
      (handle_new_user db userId email meta newCode).referrals =
        { referrerId := p.id, referredId := db.nextProfileId, referralCode := code,
          rewardGranted := true } :: db.referrals ∧
      (handle_new_user db userId email meta newCode).rewards =
        referralReward db p.id :: db.rewards ∧
      (referralReward db p.id).rewardValue =
        some (db.settings.referralRewardValue.getD 15) ∧
      (referralReward db p.id).customerId = p.id ∧
      (handle_new_user db userId email meta newCode).profiles =
        newProfile db userId email meta newCode :: db.profiles) ∧
    (db.profiles.find? (fun q => q.referralCode == code) = none →
      (handle_new_user db userId email meta newCode).referrals = db.referrals ∧
      (handle_new_user db userId email meta newCode).rewards = db.rewards ∧
      (handle_new_user db userId email meta newCode).profiles =
        newProfile db userId email meta newCode :: db.profiles) := by
  constructor
  · intro p hfind
    rw [hnu_found db userId email meta code newCode p hmcode hnc hfind]
    exact ⟨rfl, rfl, rfl, rfl, rfl⟩
  · intro hfind
    rw [hnu_notfound db userId email meta code newCode hmcode hnc hfind]
    exact ⟨rfl, rfl, rfl⟩

/-- Witness for C8: signup with code "RC" (owned by the referrer profile)
creates the referral link and the referrer's reward. -/
theorem referral_resolver_witness :
    dbExp7.profiles.find? (fun q => q.referralCode == "RC") = some referrerProfile ∧
    (handle_new_user dbExp7 5 "n@x" metaRC "ZZ").referrals =
      { referrerId := referrerProfile.id, referredId := dbExp7.nextProfileId,
        referralCode := "RC", rewardGranted := true } :: dbExp7.referrals ∧
    (handle_new_user dbExp7 5 "n@x" metaRC "ZZ").rewards =
      referralReward dbExp7 referrerProfile.id :: dbExp7.rewards :=
  ⟨by decide,
   ((referral_resolver_spec dbExp7 5 "n@x" metaRC "RC" "ZZ" (by decide) (by decide)).1
     referrerProfile (by decide)).1,
   ((referral_resolver_spec dbExp7 5 "n@x" metaRC "RC" "ZZ" (by decide) (by decide)).1
     referrerProfile (by decide)).2.1⟩

/-- C9: the claim says every engine-created reward gets an `expiration_date`
derived from the `reward_expiration_days` setting read at decision time.  The
code instead stamps every reward via the column default `now() + 30 days` and
never reads the setting: with `reward_expiration_days = 7`, ten visits
create a milestone reward and a graduation reward both expiring at `now + 30`
(not `now + 7`), and a resolved referral creates a reward expiring at
`now + 30` as well. -/
theorem reward_expiration_ignores_setting :
    dbExp7.settings.rewardExpirationDays = some 7 ∧
    (applyVisits dbExp7 (List.replicate 10 1)).rewards.map
        (fun r => (r.rewardType, r.expirationDate)) =
      [("tier_upgrade", some 30), ("milestone", some 30)] ∧
    (handle_new_user dbExp7 5 "n@x" metaRC "ZZ").rewards.map
        (fun r => (r.rewardType, r.expirationDate)) = [("referral", some 30)] ∧
    ¬(some (30 : Int) = some (dbExp7.now + 7)) := by decide
